import Mathlib

/-!
Shallow embedding of src/binary_dataset_splitter.py (line numbers below
refer to that file).

Conventions used throughout:
* Python floats are modelled as exact rationals (the ratio constants are
  short decimal literals and all claims are stated in exact arithmetic).
* Python ints are modelled as Int (sample counts, indices) or Nat
  (list lengths, loop counters).
* The filesystem is modelled at two granularities: a list of directory
  paths for the reset/scaffold stages, and an association list from a
  path (or a destination filename) to its content (or to the stage that
  wrote it) for the copy stages.
* glob.glob results are a parameter (a list of path strings) and
  random.shuffle is modelled by a permutation hypothesis.
-/

namespace BinaryDatasetSplitter

/-- Configuration constant TRAIN = 0.7 (line 90). -/
def TRAIN : ℚ := 7/10

/-- Configuration constant TEST = 0.2 (line 91). -/
def TEST : ℚ := 2/10

/-- Configuration constant VALIDATION = 0.1 (line 92). -/
def VALIDATION : ℚ := 1/10

/-- Configuration constant DATA_TYPE = "png" (line 93). -/
def DATA_TYPE : String := "png"

/-- Model of num['train'] = math.floor(TRAIN * total_num_samples)
(line 168), generalised over the train ratio. -/
def num_train (tr : ℚ) (N : ℕ) : ℤ := Int.floor (tr * N)

/-- Model of num['test'] = math.floor(TEST * total_num_samples)
(line 169), generalised over the test ratio. -/
def num_test (te : ℚ) (N : ℕ) : ℤ := Int.floor (te * N)

/-- Model of num['validation'] = total_num_samples - (num['train'] +
num['test']) (line 170). -/
def num_validation (tr te : ℚ) (N : ℕ) : ℤ :=
  (N : ℤ) - (num_train tr N + num_test te N)

/-- Model of start_index['test'] = num['train'] (line 176). -/
def start_test (tr : ℚ) (N : ℕ) : ℤ := num_train tr N

/-- Model of start_index['validation'] = num['train'] + num['test']
(line 177). -/
def start_validation (tr te : ℚ) (N : ℕ) : ℤ :=
  num_train tr N + num_test te N

/-- Model of the copy loop "for i in range(si, si + num): ...
sample_names[i]" of split_data (lines 188-195): the list of sample
names read by the loop, in order.  A nonpositive count gives an empty
range exactly as Python range does.  An out-of-range read is given the
default "" here; the safety theorem for claim C10 shows such reads do
not occur under the configured ratios. -/
def loopSlice (names : List String) (si n : ℤ) : List String :=
  (List.range n.toNat).map (fun j => names.getD (si.toNat + j) "")

/-- Sample names copied to train by split_data: the loop slice starting
at start_index['train'] = 0 (line 175) of length num['train']. -/
def train_slice (tr : ℚ) (names : List String) : List String :=
  loopSlice names 0 (num_train tr names.length)

/-- Sample names copied to test by split_data: the loop slice starting
at start_index['test'] of length num['test']. -/
def test_slice (tr te : ℚ) (names : List String) : List String :=
  loopSlice names (start_test tr names.length) (num_test te names.length)

/-- Sample names copied to validation by split_data: the loop slice
starting at start_index['validation'] of length num['validation']. -/
def validation_slice (tr te : ℚ) (names : List String) : List String :=
  loopSlice names (start_validation tr te names.length)
    (num_validation tr te names.length)

/-- Proposition that integer index i is read as sample_names[i] by one
of the three copy loops of split_data (lines 183-195): i lies in
[start_index[s], start_index[s] + num[s]) for some split s. -/
def accessedIndex (tr te : ℚ) (N : ℕ) (i : ℤ) : Prop :=
  (0 ≤ i ∧ i < num_train tr N) ∨
  (start_test tr N ≤ i ∧ i < start_test tr N + num_test te N) ∨
  (start_validation tr te N ≤ i ∧
    i < start_validation tr te N + num_validation tr te N)

instance (tr te : ℚ) (N : ℕ) (i : ℤ) : Decidable (accessedIndex tr te N i) := by
  unfold accessedIndex
  exact inferInstance

/-- Model of os.path.basename on the slash-separated paths produced by
os.path.join and glob in this script: the part of the string after the
last "/" (computed on the character list: the longest slash-free
suffix). -/
def basename (p : String) : String :=
  String.mk ((p.data.reverse.takeWhile (fun c => c ≠ '/')).reverse)

/-- Doubling of embedded double quotes, the csv escaping used under
QUOTE_ALL. -/
def escapeQuotes : List Char → List Char
  | [] => []
  | c :: rest => if c = '"' then '"' :: '"' :: escapeQuotes rest else c :: escapeQuotes rest

/-- Model of csv.QUOTE_ALL quoting of one field: the field is wrapped
in double quotes, embedded double quotes being doubled. -/
def csvQuote (s : String) : String :=
  String.mk ('"' :: escapeQuotes s.data ++ ['"'])

/-- Model of csv.writer(..., quoting=csv.QUOTE_ALL).writerow (line 240,
with newline='' on line 235): fields are quoted, comma-separated and
the row is terminated by the writer's default terminator CRLF. -/
def csv_writerow (fields : List String) : String :=
  String.intercalate "," (fields.map csvQuote) ++ "\r\n"

/-- Model of the row list built by generate_csv_files for one
(split, class) pair (lines 238-240): one single-field row per glob
result, the field being the basename of the sample path. -/
def generate_csv_rows (sample_names : List String) : List (List String) :=
  sample_names.map (fun p => [basename p])

/-- Full text of one manifest CSV file written by generate_csv_files:
the written rows, concatenated.  There is no header row and nothing
after the final row terminator. -/
def csv_content (sample_names : List String) : String :=
  String.join ((generate_csv_rows sample_names).map csv_writerow)

/-- Model of csv_filename = d['code'] + class_type + "_" + split_type
+ ".csv" (line 234). -/
def csv_filename (code_dir class_type split_type : String) : String :=
  code_dir ++ class_type ++ "_" ++ split_type ++ ".csv"

/-- Model of the rename loop of rename_data (lines 149-151): the list
of (old path, new path) pairs passed to os.rename, in loop order, for
one class directory.  sample_names is the glob result (no shuffle is
applied in rename_data). -/
def rename_data_moves (class_dir ext : String) (sample_names : List String) :
    List (String × String) :=
  (List.range sample_names.length).map
    (fun i => (sample_names.getD i "", class_dir ++ "/" ++ toString i ++ "." ++ ext))

/-- Lookup in an association list keyed by strings (a directory or a
filesystem snapshot); the first binding for a key is its current one. -/
def storeLookup {α : Type} : List (String × α) → String → Option α
  | [], _ => none
  | (k, v) :: rest, q => if q = k then some v else storeLookup rest q

/-- Remove every binding for key k (a file being overwritten). -/
def storeRemove {α : Type} : List (String × α) → String → List (String × α)
  | [], _ => []
  | (k, v) :: rest, q => if k = q then storeRemove rest q else (k, v) :: storeRemove rest q

/-- Write value v at key k, replacing any previous binding: the effect
of shutil.copy on the destination entry (it overwrites). -/
def storeWrite {α : Type} (l : List (String × α)) (k : String) (v : α) :
    List (String × α) :=
  (k, v) :: storeRemove l k

/-- Which stage wrote a file into the train/class destination
directory. -/
inductive Origin : Type
  | augmented : Origin
  | main : Origin
  deriving DecidableEq

/-- Model of one copy stage into a destination directory: each
shutil.copy(sample_location, to_dir) in loop order writes the file
under its basename into the directory, overwriting any existing file
of that name (lines 213-219 and 188-195). -/
def copy_stage (o : Origin) (names : List String)
    (dir : List (String × Origin)) : List (String × Origin) :=
  names.foldl (fun acc n => storeWrite acc (basename n) o) dir

/-- Model of the train/class destination directory after __main__
(lines 271-276) runs copy_augmented_data_to_train (augmented copies,
lines 200-221) and then the train part of split_data (main split
copies, lines 182-195), in that order, starting from directory
contents d0. -/
def train_dir_after (d0 : List (String × Origin))
    (aug_names main_train_names : List String) : List (String × Origin) :=
  copy_stage Origin.main main_train_names
    (copy_stage Origin.augmented aug_names d0)

/-- Model of shutil.copy(src, dst_dir) on a filesystem snapshot mapping
file paths to contents: the content at src is written at
dst_dir/basename(src); the source entry is not touched.  (A missing
source raises in Python; the claims settled against this model only
concern paths other than the written destination, which are unchanged
either way, so the error case is modelled as leaving the snapshot
unchanged.) -/
def shutil_copy (fs : List (String × String)) (src dst_dir : String) :
    List (String × String) :=
  match storeLookup fs src with
  | some content => storeWrite fs (dst_dir ++ "/" ++ basename src) content
  | none => fs

/-- The (source path, destination directory) pairs of every
shutil.copy performed by split_data for one class (lines 183-195), in
execution order: train slice, then test slice, then validation
slice. -/
def split_data_ops (tr te : ℚ) (names : List String)
    (d_train d_test d_val : String) : List (String × String) :=
  (train_slice tr names).map (fun n => (n, d_train)) ++
  (test_slice tr te names).map (fun n => (n, d_test)) ++
  (validation_slice tr te names).map (fun n => (n, d_val))

/-- Apply a list of copy operations to a filesystem snapshot, in
order. -/
def applyOps (fs : List (String × String)) (ops : List (String × String)) :
    List (String × String) :=
  ops.foldl (fun acc op => shutil_copy acc op.1 op.2) fs

/-- Remove one directory name from the directory list. -/
def removeDir : List String → String → List String
  | [], _ => []
  | d :: rest, p => if d = p then removeDir rest p else d :: removeDir rest p

/-- Model of shutil.rmtree (line 108) on the directory-list filesystem:
some updated list on success, none for FileNotFoundError. -/
def rmtree (fs : List String) (path : String) : Option (List String) :=
  if path ∈ fs then some (removeDir fs path) else none

/-- Model of delete_folders_in_dir (lines 105-112): the loop deletes
each listed folder in turn, but on FileNotFoundError it executes
break, so the remaining folders of the list are NOT visited; the
exception itself is swallowed. -/
def delete_folders_in_dir (fs : List String) : List String → List String
  | [] => fs
  | s :: rest =>
    match rmtree fs s with
    | some fs' => delete_folders_in_dir fs' rest
    | none => fs

/-- Model of remove_split_folders (lines 133-138): delete 'code' then
'split_samples'. -/
def remove_split_folders (fs : List String) : List String :=
  delete_folders_in_dir fs ["code", "split_samples"]

/-- Model of os.mkdir wrapped in the try/except FileExistsError of
create_folders_in_dir (lines 98-103): create the directory if absent,
otherwise log and continue. -/
def mkdir_try (fs : List String) (p : String) : List String :=
  if p ∈ fs then fs else fs ++ [p]

/-- Model of create_folders_in_dir (lines 98-103): mkdir each folder
under main_dir (main_dir already carries its trailing separator). -/
def create_folders_in_dir (fs : List String) (main_dir : String)
    (folders : List String) : List String :=
  folders.foldl (fun acc s => mkdir_try acc (main_dir ++ s)) fs

/-- Model of set_up_folder_structure (lines 114-131): create code and
split_samples, the three split folders, and benign and malign inside
each split folder, in source order. -/
def set_up_folder_structure (fs : List String) : List String :=
  let fs1 := create_folders_in_dir fs "" ["code", "split_samples"]
  let fs2 := create_folders_in_dir fs1 "split_samples/" ["test", "train", "validation"]
  (["test", "train", "validation"]).foldl
    (fun acc s => create_folders_in_dir acc ("split_samples/" ++ s ++ "/") ["benign", "malign"]) fs2

/-- Python round(x, 2) in exact rational arithmetic, scaled by 100:
round-half-to-even of 100 * x.  round(x, 2) == 1.0 is pythonRound2 x
= 100. -/
def pythonRound2 (x : ℚ) : ℤ :=
  if 100 * x - Int.floor (100 * x) < 1/2 then Int.floor (100 * x)
  else if 1/2 < 100 * x - Int.floor (100 * x) then Int.floor (100 * x) + 1
  else if Int.floor (100 * x) % 2 = 0 then Int.floor (100 * x)
  else Int.floor (100 * x) + 1

/-- Model of the configuration assertion of __main__ (line 247):
assert round(TRAIN + TEST + VALIDATION, 2) == 1.0, generalised over
the three ratios. -/
def ratioCheck (tr te va : ℚ) : Bool :=
  pythonRound2 (tr + te + va) == 100

/-- The directory-level filesystem stages of __main__ after the
assertion: remove_split_folders (line 253) then set_up_folder_structure
(line 256).  The later file-copy stages act on files, modelled
separately above. -/
def mainDirStages (fs : List String) : List String :=
  set_up_folder_structure (remove_split_folders fs)

/-- Model of the __main__ driver (lines 245-279) at directory
granularity: the assertion on the ratio sum runs first (line 247);
only when it passes do any filesystem stages run.  A failed assertion
terminates the process, carried here as an error holding the untouched
filesystem. -/
def mainRun (tr te va : ℚ) (fs : List String) :
    Except (List String) (List String) :=
  if ratioCheck tr te va then Except.ok (mainDirStages fs) else Except.error fs

/-! Helper lemmas about the split counts and the copy-loop slices. -/

lemma counts_nonneg_le (tr te : ℚ) (N : ℕ) (htr : 0 ≤ tr) (hte : 0 ≤ te)
    (hsum : tr + te ≤ 1) :
    0 ≤ num_train tr N ∧ 0 ≤ num_test te N ∧
      num_train tr N + num_test te N ≤ (N : ℤ) := by
  have hN : (0 : ℚ) ≤ (N : ℚ) := Nat.cast_nonneg N
  have h1 : 0 ≤ num_train tr N := Int.floor_nonneg.mpr (mul_nonneg htr hN)
  have h2 : 0 ≤ num_test te N := Int.floor_nonneg.mpr (mul_nonneg hte hN)
  refine ⟨h1, h2, ?_⟩
  have ha : ((num_train tr N : ℤ) : ℚ) ≤ tr * N := Int.floor_le _
  have hb : ((num_test te N : ℤ) : ℚ) ≤ te * N := Int.floor_le _
  have hc : (tr + te) * (N : ℚ) ≤ 1 * (N : ℚ) :=
    mul_le_mul_of_nonneg_right hsum hN
  rw [add_mul, one_mul] at hc
  have hq : ((num_train tr N + num_test te N : ℤ) : ℚ) ≤ (N : ℚ) := by
    push_cast
    linarith
  exact_mod_cast hq

lemma loopSlice_eq_drop_take (names : List String) (si n : ℤ)
    (h : si.toNat + n.toNat ≤ names.length) :
    loopSlice names si n = (names.drop si.toNat).take n.toNat := by
  apply List.ext_getElem
  · simp [loopSlice]
    omega
  · intro i h1 h2
    have hi : i < n.toNat := by simpa [loopSlice] using h1
    have hlt : si.toNat + i < names.length := by omega
    simp [loopSlice, List.getD_eq_getElem?_getD, List.getElem?_eq_getElem hlt]

lemma slices_eq (tr te : ℚ) (names : List String)
    (htr : 0 ≤ tr) (hte : 0 ≤ te) (hsum : tr + te ≤ 1) :
    train_slice tr names = names.take (num_train tr names.length).toNat ∧
    test_slice tr te names =
      (names.drop (num_train tr names.length).toNat).take
        (num_test te names.length).toNat ∧
    validation_slice tr te names =
      names.drop
        ((num_train tr names.length).toNat + (num_test te names.length).toNat) := by
  obtain ⟨h1, h2, h3⟩ := counts_nonneg_le tr te names.length htr hte hsum
  refine ⟨?_, ?_, ?_⟩
  · unfold train_slice
    rw [loopSlice_eq_drop_take names 0 _ (by omega)]
    simp
  · unfold test_slice start_test
    rw [loopSlice_eq_drop_take names _ _ (by omega)]
  · unfold validation_slice start_validation
    rw [loopSlice_eq_drop_take names _ _ (by unfold num_validation; omega)]
    have e1 : (num_train tr names.length + num_test te names.length).toNat =
        (num_train tr names.length).toNat + (num_test te names.length).toNat := by
      omega
    have e2 : (num_validation tr te names.length).toNat =
        names.length -
          ((num_train tr names.length).toNat + (num_test te names.length).toNat) := by
      unfold num_validation
      omega
    rw [e1, e2]
    apply List.take_of_length_le
    simp

/-- Claim C1: for every class with N matching source files and
configured ratios, the splitter computes num['train'] = floor(N *
train_ratio), num['test'] = floor(N * test_ratio) and
num['validation'] = N - num['train'] - num['test'], so the three
counts sum to N exactly: the count arithmetic drops and duplicates no
sample. -/
theorem claim1_count_arithmetic (tr te : ℚ) (N : ℕ) :
    num_train tr N = Int.floor (tr * (N : ℚ)) ∧
    num_test te N = Int.floor (te * (N : ℚ)) ∧
    num_train tr N + num_test te N + num_validation tr te N = (N : ℤ) := by
  refine ⟨rfl, rfl, ?_⟩
  unfold num_validation
  ring

/-- Claim C2: with nonnegative ratios of sum at most one, the three
copy loops of split_data take the first num['train'] shuffled items,
the next num['test'], and the remainder: concatenated they give back
the shuffled list, so (shuffling being a permutation) the multiset of
files assigned across the three splits equals the multiset of source
files and every source file is assigned to exactly one split. -/
theorem claim2_split_assignment (tr te : ℚ) (source names : List String)
    (hshuffle : names.Perm source) (htr : 0 ≤ tr) (hte : 0 ≤ te)
    (hsum : tr + te ≤ 1) :
    train_slice tr names ++ test_slice tr te names ++ validation_slice tr te names
      = names ∧
    ((train_slice tr names ++ test_slice tr te names ++ validation_slice tr te names
      : List String) : Multiset String) = (source : Multiset String) := by
  obtain ⟨e1, e2, e3⟩ := slices_eq tr te names htr hte hsum
  have hcat : train_slice tr names ++ test_slice tr te names ++
      validation_slice tr te names = names := by
    rw [e1, e2, e3, ← List.take_add, List.take_append_drop]
  refine ⟨hcat, ?_⟩
  rw [hcat]
  exact Multiset.coe_eq_coe.mpr hshuffle

/-- Claim C2 witness: a concrete instance with three samples and the
configured 0.7/0.2/0.1 ratios. -/
theorem claim2_split_assignment_w :
    train_slice (7/10) ["a", "b", "c"] ++ test_slice (7/10) (2/10) ["a", "b", "c"] ++
      validation_slice (7/10) (2/10) ["a", "b", "c"] = ["a", "b", "c"] ∧
    ((train_slice (7/10) ["a", "b", "c"] ++ test_slice (7/10) (2/10) ["a", "b", "c"] ++
      validation_slice (7/10) (2/10) ["a", "b", "c"] : List String) : Multiset String)
      = (["c", "b", "a"] : Multiset String) :=
  claim2_split_assignment (7/10) (2/10) ["c", "b", "a"] ["a", "b", "c"]
    (by decide) (by norm_num) (by norm_num) (by norm_num)

/-- Claim C10: under nonnegative ratios summing exactly to one,
num['validation'] is nonnegative and every index read as
sample_names[i] by the three copy loops of split_data is strictly
below the number N of samples: no list access is out of bounds. -/
theorem claim10_index_safety (tr te va : ℚ) (N : ℕ)
    (htr : 0 ≤ tr) (hte : 0 ≤ te) (hva : 0 ≤ va) (hsum : tr + te + va = 1) :
    0 ≤ num_validation tr te N ∧
    ∀ i : ℤ, accessedIndex tr te N i → i < (N : ℤ) := by
  have hle : tr + te ≤ 1 := by linarith
  obtain ⟨h1, h2, h3⟩ := counts_nonneg_le tr te N htr hte hle
  constructor
  · unfold num_validation
    omega
  · intro i hi
    unfold accessedIndex start_test start_validation num_validation at hi
    rcases hi with ⟨hl, hr⟩ | ⟨hl, hr⟩ | ⟨hl, hr⟩ <;> omega

/-- Claim C10 witness: the configured ratios with ten samples; index
nine, the last index of the validation loop, is within bounds. -/
theorem claim10_index_safety_w :
    0 ≤ num_validation (7/10) (2/10) 10 ∧ (9 : ℤ) < ((10 : ℕ) : ℤ) := by
  have h := claim10_index_safety (7/10) (2/10) (1/10) 10
    (by norm_num) (by norm_num) (by norm_num) (by norm_num)
  refine ⟨h.1, h.2 9 ?_⟩
  unfold accessedIndex start_validation num_validation num_train num_test
  right; right
  constructor <;> norm_num

/-! Helper lemmas about the store model of directories and copies. -/

lemma storeLookup_storeRemove {α : Type} (l : List (String × α)) (k q : String)
    (h : q ≠ k) : storeLookup (storeRemove l k) q = storeLookup l q := by
  induction l with
  | nil => rfl
  | cons p rest ih =>
    obtain ⟨k', v⟩ := p
    by_cases hk : k' = k
    · subst hk
      simp [storeRemove, storeLookup, h, ih]
    · by_cases hq : q = k'
      · subst hq
        simp [storeRemove, storeLookup, hk]
      · simp [storeRemove, storeLookup, hk, hq, ih]

lemma storeLookup_storeWrite_self {α : Type} (l : List (String × α)) (k : String)
    (v : α) : storeLookup (storeWrite l k v) k = some v := by
  simp [storeWrite, storeLookup]

lemma storeLookup_storeWrite_ne {α : Type} (l : List (String × α)) (k q : String)
    (v : α) (h : q ≠ k) : storeLookup (storeWrite l k v) q = storeLookup l q := by
  simp [storeWrite, storeLookup, h, storeLookup_storeRemove l k q h]

lemma copy_stage_cons (o : Origin) (n : String) (rest : List String)
    (dir : List (String × Origin)) :
    copy_stage o (n :: rest) dir = copy_stage o rest (storeWrite dir (basename n) o) := rfl

lemma copy_stage_not_mem (o : Origin) (names : List String)
    (dir : List (String × Origin)) (q : String) (h : q ∉ names.map basename) :
    storeLookup (copy_stage o names dir) q = storeLookup dir q := by
  induction names generalizing dir with
  | nil => rfl
  | cons n rest ih =>
    simp only [List.map_cons, List.mem_cons, not_or] at h
    rw [copy_stage_cons, ih (storeWrite dir (basename n) o) h.2]
    exact storeLookup_storeWrite_ne dir (basename n) q o h.1

lemma copy_stage_mem (o : Origin) (names : List String)
    (dir : List (String × Origin)) (q : String) (h : q ∈ names.map basename) :
    storeLookup (copy_stage o names dir) q = some o := by
  induction names generalizing dir with
  | nil => simp at h
  | cons n rest ih =>
    rw [copy_stage_cons]
    by_cases hq : q ∈ rest.map basename
    · exact ih (storeWrite dir (basename n) o) hq
    · have hqn : q = basename n := by
        simp only [List.map_cons, List.mem_cons] at h
        tauto
      subst hqn
      rw [copy_stage_not_mem o rest _ _ hq]
      exact storeLookup_storeWrite_self dir (basename n) o

/-- Claim C5: the pipeline runs the augmented copy stage before the
main split copy stage, and shutil.copy overwrites, so whenever an
augmented file and a main-split file assigned to train share one
destination filename, the file remaining in the train/class directory
under that name is the non-augmented (main split) version: for every
sample of the main train slice, the destination entry under its
basename was written by the main stage. -/
theorem claim5_main_overwrites_augmented (d0 : List (String × Origin))
    (aug_names main_train_names : List String) (p : String)
    (hp : p ∈ main_train_names) :
    storeLookup (train_dir_after d0 aug_names main_train_names) (basename p)
      = some Origin.main := by
  unfold train_dir_after
  exact copy_stage_mem Origin.main main_train_names _ (basename p)
    (List.mem_map_of_mem basename hp)

/-- Claim C5 witness: an augmented file and a main split file both
named 1.png; the train directory retains the main split version. -/
theorem claim5_main_overwrites_augmented_w :
    storeLookup
      (train_dir_after [] ["all_benign/augmented/1.png"] ["all_benign/1.png"])
      (basename "all_benign/1.png") = some Origin.main :=
  claim5_main_overwrites_augmented [] ["all_benign/augmented/1.png"]
    ["all_benign/1.png"] "all_benign/1.png" (by decide)

lemma applyOps_preserve (ops : List (String × String))
    (fs : List (String × String)) (p : String)
    (h : ∀ op ∈ ops, op.2 ++ "/" ++ basename op.1 ≠ p) :
    storeLookup (applyOps fs ops) p = storeLookup fs p := by
  induction ops generalizing fs with
  | nil => rfl
  | cons op rest ih =>
    have hstep : applyOps fs (op :: rest) = applyOps (shutil_copy fs op.1 op.2) rest := rfl
    rw [hstep, ih (shutil_copy fs op.1 op.2) (fun o ho => h o (List.mem_cons_of_mem op ho))]
    unfold shutil_copy
    cases hcl : storeLookup fs op.1 with
    | none => rfl
    | some content =>
      exact storeLookup_storeWrite_ne fs _ p content
        (fun he => h op (List.mem_cons_self op rest) he.symm)

/-- Claim C9: split_data copies and does not move: applying every copy
operation of the split stage changes no filesystem entry other than
the written destination paths; in particular every original source
sample file (whose path is none of the destination paths) is still
present with unchanged content after the stage. -/
theorem claim9_copy_preserves_sources (tr te : ℚ) (names : List String)
    (d_train d_test d_val : String) (fs : List (String × String)) (p : String)
    (h : ∀ op ∈ split_data_ops tr te names d_train d_test d_val,
      op.2 ++ "/" ++ basename op.1 ≠ p) :
    storeLookup (applyOps fs (split_data_ops tr te names d_train d_test d_val)) p
      = storeLookup fs p :=
  applyOps_preserve (split_data_ops tr te names d_train d_test d_val) fs p h

/-- Claim C9 witness: one source sample, train ratio one; after the
split-stage copies the source file still holds its content. -/
theorem claim9_copy_preserves_sources_w :
    storeLookup
      (applyOps [("all_benign/0.png", "imgdata")]
        (split_data_ops 1 0 ["all_benign/0.png"] "split_samples/train/benign"
          "split_samples/test/benign" "split_samples/validation/benign"))
      "all_benign/0.png"
      = storeLookup [("all_benign/0.png", "imgdata")] "all_benign/0.png" := by
  apply claim9_copy_preserves_sources
  intro op hop
  have hops : split_data_ops 1 0 ["all_benign/0.png"] "split_samples/train/benign"
      "split_samples/test/benign" "split_samples/validation/benign"
      = [("all_benign/0.png", "split_samples/train/benign")] := by
    have h1 : num_train 1 1 = 1 := by unfold num_train; norm_num
    have h2 : num_test 0 1 = 0 := by unfold num_test; norm_num
    unfold split_data_ops train_slice test_slice validation_slice loopSlice
      num_validation start_test start_validation
    simp [h1, h2]
    rfl
  rw [hops] at hop
  simp only [List.mem_singleton] at hop
  subst hop
  decide

/-- Claim C3 (evaluation at the failing state): with the code
directory absent but split_samples present, delete_folders_in_dir hits
FileNotFoundError on 'code' and executes break, so split_samples is
never deleted: after the reset stage it is still present, refuting the
claim that both directories are absent after reset in every
present/absent combination. -/
theorem claim3_reset_break_skips_split_samples :
    remove_split_folders ["split_samples"] = ["split_samples"] ∧
    "split_samples" ∈ remove_split_folders ["split_samples"] := by
  refine ⟨rfl, ?_⟩
  decide

/-- Claim C8: a class with zero matching source files gets all three
split counts equal to zero and the split stage performs no copy
operation for it; the (total) stage completes without error. -/
theorem claim8_empty_class (tr te : ℚ) (d_train d_test d_val : String) :
    num_train tr 0 = 0 ∧ num_test te 0 = 0 ∧ num_validation tr te 0 = 0 ∧
    split_data_ops tr te [] d_train d_test d_val = [] := by
  have h1 : num_train tr 0 = 0 := by
    unfold num_train
    norm_num
  have h2 : num_test te 0 = 0 := by
    unfold num_test
    norm_num
  have h3 : num_validation tr te 0 = 0 := by
    unfold num_validation
    omega
  refine ⟨h1, h2, h3, ?_⟩
  unfold split_data_ops train_slice test_slice validation_slice loopSlice
    start_test start_validation
  simp [h1, h2, h3]

/-- Claim C7: the renamer lists each class's matching files in glob
order with no shuffle, and the i-th rename sends the i-th listed file
to i.ext, for i from 0 to N - 1. -/
theorem claim7_rename_sequential (dir ext : String) (names : List String) :
    (rename_data_moves dir ext names).length = names.length ∧
    ∀ i, i < names.length →
      (rename_data_moves dir ext names).getD i ("", "") =
        (names.getD i "", dir ++ "/" ++ toString i ++ "." ++ ext) := by
  constructor
  · simp [rename_data_moves]
  · intro i hi
    unfold rename_data_moves
    rw [List.getD_eq_getElem?_getD, List.getElem?_eq_getElem (by simpa using hi)]
    simp

/-- Claim C7 witness: one file; the move for index zero renames it to
0.png inside its class directory. -/
theorem claim7_rename_sequential_w :
    (rename_data_moves "all_benign" "png" ["all_benign/x.png"]).getD 0 ("", "") =
      ("all_benign/x.png", "all_benign/0.png") := by
  have h := (claim7_rename_sequential "all_benign" "png" ["all_benign/x.png"]).2 0
    (by norm_num)
  rw [h]
  rfl

/-- Claim C6: the manifest for a (split, class) pair is named
class_split.csv inside the code output directory and has one row per
matching file present in the destination directory (so its row count
equals the number of such files); each row holds only the quoted
basename, and the file text is exactly the quoted basenames each
followed by one row terminator: no header row and no trailing blank
line. -/
theorem claim6_manifest (names : List String) (code_dir c s : String) :
    csv_filename code_dir c s = code_dir ++ (c ++ "_" ++ s ++ ".csv") ∧
    (generate_csv_rows names).length = names.length ∧
    (∀ row ∈ generate_csv_rows names, ∃ p ∈ names, row = [basename p]) ∧
    csv_content names =
      String.join (names.map (fun p => csvQuote (basename p) ++ "\r\n")) := by
  refine ⟨?_, ?_, ?_, ?_⟩
  · unfold csv_filename
    simp [String.append_assoc]
  · simp [generate_csv_rows]
  · intro row hrow
    simp only [generate_csv_rows, List.mem_map] at hrow
    obtain ⟨p, hp, he⟩ := hrow
    exact ⟨p, hp, he.symm⟩
  · unfold csv_content generate_csv_rows csv_writerow
    rw [List.map_map]
    rfl

/-- Claim C6 witness: two files in a destination directory; the
manifest name, the row count and one row's content, concretely. -/
theorem claim6_manifest_w :
    csv_filename "code/" "benign" "train" = "code/benign_train.csv" ∧
    (generate_csv_rows ["all_benign/x.png", "all_benign/y.png"]).length = 2 ∧
    (∃ p ∈ ["all_benign/x.png", "all_benign/y.png"], ["x.png"] = [basename p]) := by
  have h := claim6_manifest ["all_benign/x.png", "all_benign/y.png"] "code/" "benign" "train"
  refine ⟨?_, h.2.1, ?_⟩
  · rw [h.1]
    rfl
  · exact h.2.2.1 ["x.png"] (by decide)

/-! Helper lemmas about the ratio-sum assertion. -/

lemma pythonRound2_eq_100_iff (x : ℚ) :
    pythonRound2 x = 100 ↔ |100 * x - 100| ≤ 1/2 := by
  unfold pythonRound2
  set y : ℚ := 100 * x with hy
  set f : ℤ := Int.floor y with hf
  have hfl : (f : ℚ) ≤ y := Int.floor_le y
  have hfu : y < (f : ℚ) + 1 := Int.lt_floor_add_one y
  rw [abs_le]
  split_ifs with hr1 hr2 hpar
  · constructor
    · intro h
      rw [h] at hfl hr1
      push_cast at hfl hr1
      constructor <;> linarith
    · rintro ⟨hlo, hhi⟩
      have e1 : (f : ℚ) < 101 := by linarith
      have e2 : (99 : ℚ) < (f : ℚ) := by linarith
      have i1 : f < 101 := by exact_mod_cast e1
      have i2 : (99 : ℤ) < f := by exact_mod_cast e2
      omega
  · push_neg at hr1
    constructor
    · intro h
      have hf99 : f = 99 := by omega
      rw [hf99] at hfu hr2
      push_cast at hfu hr2
      constructor <;> linarith
    · rintro ⟨hlo, hhi⟩
      have e1 : (f : ℚ) < 100 := by linarith
      have e2 : (98 : ℚ) < (f : ℚ) := by linarith
      have i1 : f < 100 := by exact_mod_cast e1
      have i2 : (98 : ℤ) < f := by exact_mod_cast e2
      omega
  · push_neg at hr1 hr2
    have heq : y - (f : ℚ) = 1/2 := le_antisymm hr2 hr1
    constructor
    · intro h
      rw [h] at heq
      push_cast at heq
      constructor <;> linarith
    · rintro ⟨hlo, hhi⟩
      have e1 : (f : ℚ) ≤ 100 := by linarith
      have e2 : (99 : ℚ) ≤ (f : ℚ) := by linarith
      have i1 : f ≤ 100 := by exact_mod_cast e1
      have i2 : (99 : ℤ) ≤ f := by exact_mod_cast e2
      omega
  · push_neg at hr1 hr2
    have heq : y - (f : ℚ) = 1/2 := le_antisymm hr2 hr1
    constructor
    · intro h
      have hf99 : f = 99 := by omega
      rw [hf99] at heq
      push_cast at heq
      constructor <;> linarith
    · rintro ⟨hlo, hhi⟩
      have e1 : (f : ℚ) ≤ 100 := by linarith
      have e2 : (99 : ℚ) ≤ (f : ℚ) := by linarith
      have i1 : f ≤ 100 := by exact_mod_cast e1
      have i2 : (99 : ℤ) ≤ f := by exact_mod_cast e2
      omega

lemma ratioCheck_iff (tr te va : ℚ) :
    ratioCheck tr te va = true ↔ |tr + te + va - 1| ≤ 1/200 := by
  unfold ratioCheck
  rw [beq_iff_eq, pythonRound2_eq_100_iff]
  rw [show 100 * (tr + te + va) - 100 = 100 * (tr + te + va - 1) by ring, abs_mul]
  rw [abs_of_nonneg (by norm_num : (0:ℚ) ≤ 100)]
  constructor <;> intro hh <;> linarith [abs_nonneg (tr + te + va - 1)]

/-- Claim C4 counterexample: ratios 0.7, 0.2, 0.11 sum to 1.01, which
is within the claimed tolerance of 0.01, yet the configuration check
round(sum, 2) == 1.0 fails on them (round(1.01, 2) = 1.01): the
claimed acceptance region is wrong. -/
theorem claim4_tolerance_counterexample :
    ratioCheck (7/10) (2/10) (11/100) = false ∧
    |(7/10 : ℚ) + 2/10 + 11/100 - 1| ≤ 1/100 := by
  constructor
  · unfold ratioCheck pythonRound2
    norm_num
  · rw [show (7/10 : ℚ) + 2/10 + 11/100 - 1 = 1/100 by norm_num]
    rw [abs_of_nonneg (by norm_num : (0:ℚ) ≤ 1/100)]

/-- Claim C4 (amended): the configuration check accepts the ratios if
and only if their sum lies within 0.005 of 1.0 (the set of sums whose
round-half-to-even at two decimals is exactly 1.00, boundaries
included), not 0.01; and when the check fails it does so before any
filesystem mutation: the driver terminates with the filesystem
untouched. -/
theorem claim4_ratio_check_amended (tr te va : ℚ) (fs : List String) :
    (ratioCheck tr te va = true ↔ |tr + te + va - 1| ≤ 1/200) ∧
    (ratioCheck tr te va = false → mainRun tr te va fs = Except.error fs) := by
  refine ⟨ratioCheck_iff tr te va, ?_⟩
  intro h
  simp [mainRun, h]

/-- Claim C4 witness: the configured 0.7/0.2/0.1 ratios pass the
check; with the bad 0.7/0.2/0.11 ratios the driver stops with the
filesystem unchanged. -/
theorem claim4_ratio_check_amended_w :
    ratioCheck (7/10) (2/10) (1/10) = true ∧
    mainRun (7/10) (2/10) (11/100) [] = Except.error [] := by
  constructor
  · apply (claim4_ratio_check_amended (7/10) (2/10) (1/10) []).1.mpr
    rw [show (7/10 : ℚ) + 2/10 + 1/10 - 1 = 0 by norm_num, abs_zero]
    norm_num
  · apply (claim4_ratio_check_amended (7/10) (2/10) (11/100) []).2
    unfold ratioCheck pythonRound2
    norm_num

end BinaryDatasetSplitter
